import Mathlib

/-
Verification of the MongoDbManager connection lifecycle engine
(src/index.js of js-zrim-mongo-manager).

The JavaScript source is shallowly embedded: each function of the source
that the claims mention is translated into an executable Lean definition,
with asynchronous callback plumbing made explicit (a step's outcome is a
value; event races are a fold over an event list; the mutable JS heap for
the deep-copy question is an explicit list of cells).  Comments on every
definition name the source lines it embeds.
-/

namespace MongoManager

/-! ## JavaScript value model

A small model of JavaScript runtime values, enough to express the
truthiness test `if (error)` used in the source and the nil test
(`null`/`undefined`) that the specification speaks about. -/

/-- Model of a JavaScript value as far as truthiness and nil-ness are
concerned.  `errObj` is a value that is `instanceof Error`; `obj` is any
other object. -/
inductive JsVal where
  | undef
  | null
  | boolV (b : Bool)
  | numV (n : Int)
  | strV (s : String)
  | errObj (id : Nat)
  | obj (id : Nat)
deriving DecidableEq, Repr

/-- JavaScript truthiness: `undefined`, `null`, `false`, `0` and `""` are
falsy, everything else modelled here is truthy. -/
def truthyJs : JsVal → Bool
  | .undef => false
  | .null => false
  | .boolV b => b
  | .numV n => n != 0
  | .strV s => s != ""
  | .errObj _ => true
  | .obj _ => true

/-- lodash `_.isNil`: true exactly for `null` and `undefined`. -/
def isNilJs : JsVal → Bool
  | .undef => true
  | .null => true
  | _ => false

/-! ## Default post-connection hook (source lines 669-678)

`MongoDbManager.prototype._handlePostConnection = function (context, error)`
returns a promise that rejects with `error` when `if (error)` holds and
resolves otherwise.  The `context` argument is ignored by the default
implementation; it is kept as an opaque `Nat`. -/

/-- Embedding of the default `_handlePostConnection(context, error)`:
`Except.error e` models the promise rejecting with `e`, `Except.ok ()`
models it resolving. -/
def _handlePostConnection (_context : Nat) (error : JsVal) : Except JsVal Unit :=
  if truthyJs error then .error error else .ok ()

/-! ## Live-connection event dispatch (source lines 172-205)

After a successful connect the handlers `_handleMongoDbConnectionClosed`
(for the driver's terminal `'error'` event) and `_handleReconnection`
(for `'connect'` and `'reconnect'`) are invoked by the driver.  Both
first check `this.currentState === MongoDbManager.States.Disconnecting`
and ignore the event in that case; otherwise they invoke the base
machine hook (`_onConnectionLost` / `_onReconnected`) and attach a
rejection handler that only logs, so a hook failure never escapes the
event handler. -/

/-- The outer state machine's states (provided by the external
`ConnectableObject` base; only `Disconnecting` is tested by the code). -/
inductive LifecycleState where
  | Disconnected
  | Connecting
  | Connected
  | Disconnecting
  | Reconnecting
deriving DecidableEq, Repr

/-- The ongoing driver events subscribed on the live handle
(source lines 281-286). -/
inductive LiveEvent where
  | errorEv
  | connectEv
  | reconnectEv
deriving DecidableEq, Repr

/-- The base-machine hooks the two handlers can invoke. -/
inductive HookCall where
  | onConnectionLost
  | onReconnected
deriving DecidableEq, Repr

/-- Result of the invoked hook's own promise (success, or failure with an
error id); the handlers log a failure but never re-throw it. -/
inductive HookResult where
  | ok
  | failed (e : Nat)
deriving DecidableEq, Repr

/-- Which hook a given live event routes to: `'error'` goes to
`_onConnectionLost` (lines 172-185), `'connect'` and `'reconnect'` both
go to `_onReconnected` via `_handleReconnection` (lines 191-205). -/
def liveEventHook : LiveEvent → HookCall
  | .errorEv => .onConnectionLost
  | .connectEv => .onReconnected
  | .reconnectEv => .onReconnected

/-- Embedding of one delivery of a live driver event: returns the list of
base-machine hooks invoked and the error (if any) propagated out of the
event handler.  Mirrors `_handleMongoDbConnectionClosed` and
`_handleReconnection`: in state `Disconnecting` the event is ignored;
otherwise the routed hook is invoked once, and the hook's own result
`hr` is only logged (`.then(ok, log)`), never propagated. -/
def dispatchLiveEvent (st : LifecycleState) (ev : LiveEvent) (_hr : HookResult) :
    List HookCall × Option Nat :=
  if st = .Disconnecting then ([], none)
  else ([liveEventHook ev], none)

/-! ## Connect attempt race (source lines 320-486, step `connection`)

The `connection` step arms a deadline timer
(`connectionTimeoutId = setTimeout(_connectionTimeout, ms)`, line 481)
and starts the driver connect whose promise settles into
`_mongoConnectionSuccess` or `_mongoConnectionError`.  The local state is
the pair of flags `connectionTimeoutId` (armed timer handle; cleared to
`undefined`/`null` when disarmed) and `connectionTimedOut`.  We embed the
three handlers as a step function over that state and record every
consumption of the attempt in an `outcomes` list (an entry corresponds
to the attempt being resolved: `stepDone` for error/timeout, entering the
post-connection continuation for success). -/

/-- An event that can reach the `connection` step's handlers: the driver
promise fulfilling, the driver promise rejecting, or the deadline timer
firing. -/
inductive AttemptEvent where
  | success
  | error
  | timeout
deriving DecidableEq, Repr

/-- How the in-flight connect attempt was consumed. `timedOutErr ms` is
the `TimedOutException` built at source line 477, which carries the
configured timeout value `context.connectionTimeoutMs`. -/
inductive AttemptOutcome where
  | connected
  | connectError
  | timedOutErr (ms : Nat)
deriving DecidableEq, Repr

/-- The `connection` step's mutable local state: `timerArmed` models
`connectionTimeoutId` being non-nil, `timedOut` models
`connectionTimedOut`, and `outcomes` records each resolution of the
attempt, in order. -/
structure AttemptState where
  timerArmed : Bool
  timedOut : Bool
  outcomes : List AttemptOutcome
deriving DecidableEq, Repr

/-- State right after line 481: timer armed, not timed out, unresolved. -/
def initAttempt : AttemptState :=
  { timerArmed := true, timedOut := false, outcomes := [] }

/-- One handler invocation, following the source exactly:
`_mongoConnectionSuccess` (lines 340-352) and `_mongoConnectionError`
(lines 432-446) return early when `connectionTimedOut` is set and
otherwise clear the timer and resolve the attempt;
`_connectionTimeout` (lines 467-478) returns early when
`connectionTimeoutId` is already nil and otherwise nulls it, sets
`connectionTimedOut` and resolves the attempt with the timeout error. -/
def stepAttemptEvent (ms : Nat) (st : AttemptState) : AttemptEvent → AttemptState
  | .success =>
      if st.timedOut then st
      else { st with timerArmed := false, outcomes := st.outcomes ++ [.connected] }
  | .error =>
      if st.timedOut then st
      else { st with timerArmed := false, outcomes := st.outcomes ++ [.connectError] }
  | .timeout =>
      if !st.timerArmed then st
      else { timerArmed := false, timedOut := true,
             outcomes := st.outcomes ++ [.timedOutErr ms] }

/-- Deliver a list of events, in order, starting from `initAttempt`. -/
def runAttempt (ms : Nat) (evs : List AttemptEvent) : AttemptState :=
  evs.foldl (stepAttemptEvent ms) initAttempt

/-- Whether an event comes from the driver's connect promise (which
settles at most once). -/
def isDriverEvent : AttemptEvent → Bool
  | .success => true
  | .error => true
  | .timeout => false

/-- The outcome the first-arriving event produces. -/
def attemptOutcomeOf (ms : Nat) : AttemptEvent → AttemptOutcome
  | .success => .connected
  | .error => .connectError
  | .timeout => .timedOutErr ms

/-! ## Post-connection continuation of a raw connect success
(source lines 354-424)

After `_mongoConnectionSuccess` wins the race it calls
`context.manager._handlePostConnection(postConnectionContext)` and either
runs `_handlePostConnectionCallback(userError)` on fulfilment (lines
366-402) or the `.catch` continuation (lines 408-424) on rejection.  Both
error paths first `db.close(true)` and only then call `stepDone`.  The
fulfilment path wraps a non-`Error` value in
`new exceptions.BaseError("Post connection failed", userError)` (lines
373-378); the rejection path passes the rejection value through without
any wrapping; on both paths a failure of `db.close` itself is passed to
`stepDone` in place of the hook's error (the closure parameter `error`
of `.catch(error => ...)` shadows the outer error, lines 388-393 and
419-423). -/

/-- A value the overridable post-connection hook can report: either a
proper `Error` instance or any other (truthy) value. -/
inductive HookValue where
  | jsError (id : Nat)
  | nonError (id : Nat)
deriving DecidableEq, Repr

/-- The `instanceof Error` test of source line 373. -/
def isInstanceOfError : HookValue → Bool
  | .jsError _ => true
  | .nonError _ => false

/-- An error the `connection` step can resolve with after a raw connect
success: the hook's own value, the generic
`BaseError("Post connection failed", cause)` wrapper, or the rejection
reason of `db.close(true)`. -/
inductive AttemptError where
  | hookValue (v : HookValue)
  | postConnectionFailed (cause : HookValue)
  | closeFailed (e : Nat)
deriving DecidableEq, Repr

/-- The observable actions of the continuation, in execution order:
invoking `db.close(true)` and invoking the step's callback. -/
inductive StepAction where
  | closeCall
  | stepDoneOk
  | stepDoneErr (e : AttemptError)
deriving DecidableEq, Repr

/-- How the hook settled: `fulfilled v` models the hook's promise
resolving with value `v` (`none` stands for `undefined` or any other
falsy value, so that `if (userError)` on line 368 is false);
`rejected v` models the promise rejecting with `v`. -/
inductive HookReport where
  | fulfilled (v : Option HookValue)
  | rejected (v : HookValue)
deriving DecidableEq, Repr

/-- Result of `db.close(true)`. -/
inductive CloseResult where
  | closeOk
  | closeErr (e : Nat)
deriving DecidableEq, Repr

/-- Lines 372-378: keep a value that is `instanceof Error`, wrap any
other reported value in `BaseError("Post connection failed", value)`. -/
def wrapUserError (v : HookValue) : AttemptError :=
  if isInstanceOfError v then .hookValue v else .postConnectionFailed v

/-- The error value reported by a hook settlement, if any. -/
def reportedValue : HookReport → Option HookValue
  | .fulfilled v => v
  | .rejected v => some v

/-- Embedding of the whole continuation after a raw connect success: the
trace of close/stepDone actions it performs, given how the hook settled
and how `db.close(true)` behaves.  Follows lines 366-424 of the source
literally (see the section comment for the line-by-line mapping). -/
def postConnectionResolution (report : HookReport) (closeRes : CloseResult) :
    List StepAction :=
  match report with
  | .fulfilled none => [.stepDoneOk]
  | .fulfilled (some v) =>
      match closeRes with
      | .closeOk => [.closeCall, .stepDoneErr (wrapUserError v)]
      | .closeErr e => [.closeCall, .stepDoneErr (.closeFailed e)]
  | .rejected v =>
      match closeRes with
      | .closeOk => [.closeCall, .stepDoneErr (.hookValue v)]
      | .closeErr e => [.closeCall, .stepDoneErr (.closeFailed e)]

/-! ## Connection context listeners (source lines 212-227 and 267-287)

On a successful connect the manager registers
`mongoDataBase.on('error', _handleMongoDbConnectionClosed)`,
`.on('connect', _handleReconnection)` and
`.on('reconnect', _handleReconnection)` (lines 281-286) and stores them in
`currentConnexionContext`.  Releasing a context (`_freePreviousContext`,
lines 212-219, also used by `_handleDisconnection`) calls
`removeListener('close', handleErrorFunction)`,
`removeListener('connect', handleReconnection)` and
`removeListener('reconnect', handleReconnection)`.  We embed the event
emitter's listener table as a list of (event name, listener id) pairs;
`removeListener` removes at most one matching registration. -/

/-- The event names involved in registration and release. -/
inductive MongoEvent where
  | errorEv
  | closeEv
  | connectEv
  | reconnectEv
deriving DecidableEq, Repr

/-- The listener table of the connection handle: one entry per active
registration. -/
abbrev ListenerBag := List (MongoEvent × Nat)

/-- `emitter.on(event, listener)`: appends a registration. -/
def onListener (bag : ListenerBag) (ev : MongoEvent) (l : Nat) : ListenerBag :=
  bag ++ [(ev, l)]

/-- `emitter.removeListener(event, listener)`: removes at most one
matching registration (Node removes a single instance; removing a
listener that is not registered is a no-op). -/
def removeListenerOnce : ListenerBag → MongoEvent → Nat → ListenerBag
  | [], _, _ => []
  | (e, l) :: rest, ev, x =>
      if e = ev ∧ l = x then rest
      else (e, l) :: removeListenerOnce rest ev x

/-- Lines 281-286: the three registrations a new connection context makes
on its `mongoDataBase` handle (`errL` is `_handleMongoDbConnectionClosed`,
`recL` is `_handleReconnection`). -/
def registerContextListeners (bag : ListenerBag) (errL recL : Nat) : ListenerBag :=
  onListener (onListener (onListener bag .errorEv errL) .connectEv recL) .reconnectEv recL

/-- Lines 212-219, `_freePreviousContext`: the three removals performed
when a context is released — note the first removal targets the
`'close'` event. -/
def freeContext (bag : ListenerBag) (errL recL : Nat) : ListenerBag :=
  removeListenerOnce
    (removeListenerOnce (removeListenerOnce bag .closeEv errL) .connectEv recL)
    .reconnectEv recL

/-! ## Option model and validation (source lines 85-101)

The Joi schema `_handleInitializationOptionsSchema` requires:
`connectionTimeoutMs` a number `>= 1000` (optional);
`connectionString` a trimmed string of length `>= 1` (required);
`collections` an array (required) of objects with a trimmed non-empty
`name` (required) and an `index` array (required) whose items carry a
required `native.keys` object mapping field names matching
`/^[a-z_][a-z0-9_.-]*$/i` to numbers, plus an optional `native.options`
object.  Unknown extra keys are tolerated everywhere and are not
modelled. -/

/-- A value appearing as an index key's direction: a number, or any
non-number value (which the schema rejects). -/
inductive KeyVal where
  | num (n : Int)
  | nonNum (id : Nat)
deriving DecidableEq, Repr

/-- The `native` part of an index option: the `keys` mapping and the
opaque optional `options` object. -/
structure IndexNative where
  keys : List (String × KeyVal)
  options : Option Nat
deriving DecidableEq, Repr

/-- One entry of a collection's `index` array. -/
structure IndexOption where
  native : IndexNative
deriving DecidableEq, Repr

/-- One entry of the `collections` array. -/
structure CollectionOption where
  name : String
  index : List IndexOption
deriving DecidableEq, Repr

/-- First character class of the key-name pattern `[a-z_]` with the `i`
flag: an ASCII letter or underscore. -/
def isFieldStartChar (c : Char) : Bool :=
  c.isAlpha || c == '_'

/-- Remaining character class `[a-z0-9_.-]` with the `i` flag. -/
def isFieldChar (c : Char) : Bool :=
  c.isAlphanum || c == '_' || c == '.' || c == '-'

/-- The anchored pattern `/^[a-z_][a-z0-9_.-]*$/i` on a field name. -/
def matchesFieldPattern (s : String) : Bool :=
  match s.data with
  | [] => false
  | c :: cs => isFieldStartChar c && cs.all isFieldChar

/-- Validity of one `keys` entry: pattern-matching field name and a
numeric direction. -/
def validKeyEntry (e : String × KeyVal) : Bool :=
  matchesFieldPattern e.1 && (match e.2 with | .num _ => true | .nonNum _ => false)

/-- The character list of a string with leading and trailing whitespace
removed (the effect of Joi's `string().trim()` before `min(1)` is
checked). -/
def trimmedChars (s : String) : List Char :=
  ((s.data.dropWhile Char.isWhitespace).reverse.dropWhile Char.isWhitespace).reverse

/-- First error of a list of validation results. -/
def firstValidationError : List (Except String Unit) → Except String Unit
  | [] => .ok ()
  | .ok () :: rest => firstValidationError rest
  | .error msg :: _ => .error msg

/-- Validation of one index option: every `keys` entry must satisfy the
pattern/number constraint. -/
def validateIndexOption (i : IndexOption) : Except String Unit :=
  if i.native.keys.all validKeyEntry then .ok ()
  else .error "keys does not match the required pattern"

/-- Validation of one collection option: non-blank trimmed name, then
each index option. -/
def validateCollectionOption (c : CollectionOption) : Except String Unit :=
  if trimmedChars c.name = [] then .error "name is not allowed to be empty"
  else firstValidationError (c.index.map validateIndexOption)

/-- Validation of `connectionTimeoutMs` when present: `min(1000)`. -/
def validateTimeout : Option Nat → Except String Unit
  | none => .ok ()
  | some t =>
      if 1000 ≤ t then .ok ()
      else .error "connectionTimeoutMs must be larger than or equal to 1000"

/-- Validation of the whole options object against the schema. -/
def validateOptions (connectionString : String) (tmo : Option Nat)
    (colls : List CollectionOption) : Except String Unit :=
  match validateTimeout tmo with
  | .error msg => .error msg
  | .ok () =>
      if trimmedChars connectionString = [] then
        .error "connectionString is not allowed to be empty"
      else firstValidationError (colls.map validateCollectionOption)

/-! ## A tiny JS heap for the deep-copy question (source lines 143-150)

`_handleInitialization` stores
`collections: _.cloneDeep(options.collections)`.  To state
"deep-equal but not reference-equal, so later caller mutation of the
input never affects stored state" we model the mutable object world as a
heap of cells, each holding one (immutable snapshot of a) collections
array; a reference is an index into the heap.  `cloneDeep` allocates a
fresh cell with the same value; mutation overwrites a cell in place. -/

/-- The heap: cell `r` holds the current value of the collections array
referenced by `r`. -/
abbrev Heap := List (List CollectionOption)

/-- Dereference. -/
def heapGet : Heap → Nat → Option (List CollectionOption)
  | [], _ => none
  | c :: _, 0 => some c
  | _ :: cs, n + 1 => heapGet cs n

/-- In-place mutation of the referenced array (models the caller mutating
its own input object after the call). -/
def heapSet : Heap → Nat → List CollectionOption → Heap
  | [], _, _ => []
  | _ :: cs, 0, v => v :: cs
  | c :: cs, n + 1, v => c :: heapSet cs n v

/-- `_.cloneDeep`: allocate a fresh cell holding the same value and
return its reference. -/
def heapAlloc (h : Heap) (v : List CollectionOption) : Heap × Nat :=
  (h ++ [v], h.length)

/-- The manager state `_handleInitialization` touches:
`properties.mongoDbOptions` (connection string plus the reference to the
stored collections copy) and `properties.connectionTimeoutMs`. -/
structure StoredMongoDbOptions where
  connectionString : String
  collectionsRef : Nat
deriving DecidableEq, Repr

/-- The slice of `this.properties` owned by the initialize hook. -/
structure ManagerInitState where
  mongoDbOptions : Option StoredMongoDbOptions
  connectionTimeoutMs : Nat
deriving DecidableEq, Repr

/-- Embedding of `_handleInitialization` (source lines 131-157), after
the base-class call succeeded: validate the options with the Joi schema;
on error reject with `IllegalArgumentException("Invalid options: " +
message)` leaving state and heap untouched; on success store the
connection string and a deep copy of the collections, and adopt
`connectionTimeoutMs` when it is truthy (line 148).  A dangling
collections reference plays the role of an absent `collections` option,
which the schema rejects as required.  Returns (rejection message if
any, new state, new heap). -/
def _handleInitialization (st : ManagerInitState) (h : Heap) (connectionString : String)
    (tmo : Option Nat) (collsRef : Nat) :
    Option String × ManagerInitState × Heap :=
  match heapGet h collsRef with
  | none => (some "Invalid options: collections is required", st, h)
  | some colls =>
      match validateOptions connectionString tmo colls with
      | .error msg => (some ("Invalid options: " ++ msg), st, h)
      | .ok () =>
          let alloc := heapAlloc h colls
          let st2 : ManagerInitState :=
            { mongoDbOptions := some ⟨connectionString, alloc.2⟩,
              connectionTimeoutMs :=
                match tmo with
                | some t => if t = 0 then st.connectionTimeoutMs else t
                | none => st.connectionTimeoutMs }
          (none, st2, alloc.1)

/-! ## Connect pipeline steps and the waterfall (source lines 240-260)

`_handleConnection` runs the four steps `connection`, `fetchCollections`,
`initializeCollectionIndex`, `exportVariables` through
`async.waterfall`: a step that calls its callback with an error aborts
the sequence and rejects the connect promise with that error; a step
that never calls its callback stalls the waterfall, so the connect
promise never settles at all. -/

/-- Errors produced by one index-creation task
(`_createTaskCreateIndex`, source lines 560-588):
`missingCollection` is `Error("Cannot find the collection '<name>'")`,
`unsupportedOperation` is `Error("The collection '<name>' does not have
the function 'createIndex'")`, and `createIndexFailed` is the rejection
reason of the driver's `createIndex` call. -/
inductive TaskError where
  | missingCollection (name : String)
  | unsupportedOperation (name : String)
  | createIndexFailed (e : Nat)
deriving DecidableEq, Repr

/-- How one waterfall step terminates: callback with success, callback
with an error, or no callback at all (the waterfall hangs). -/
inductive StepOutcome where
  | ok
  | err (e : TaskError)
  | noCallback
deriving DecidableEq, Repr

/-- `async.waterfall` over the steps' terminations: the first error or
missing callback wins. -/
def waterfallOutcome : List StepOutcome → StepOutcome
  | [] => .ok
  | .ok :: rest => waterfallOutcome rest
  | .err e :: _ => .err e
  | .noCallback :: _ => .noCallback

/-- The outcome of the four-step connect pipeline of lines 241-246. -/
def connectStepsOutcome (connection fetch index exportVars : StepOutcome) : StepOutcome :=
  waterfallOutcome [connection, fetch, index, exportVars]

/-! ## Parallel index builder (source lines 526-609) -/

/-- A resolved collection handle as the index step sees it: whether it
has a `createIndex` function, and what that call settles with (`none`
for success, `some e` for a rejection with error id `e`). -/
structure CollHandle where
  hasCreateIndex : Bool
  createIndexResult : Option Nat
deriving DecidableEq, Repr

/-- The resolved registry `context.collections`: name to handle. -/
abbrev Registry := List (String × CollHandle)

/-- JS object property access `context.collections[name]`. -/
def registryLookup (reg : Registry) (name : String) : Option CollHandle :=
  List.lookup name reg

/-- One entry of `collectionsWithIndex` (lines 530-547): the collection
name and its extracted `{keys, options}` job specs. -/
structure CollectionWithIndex where
  name : String
  indexes : List IndexNative
deriving DecidableEq, Repr

/-- Lines 530-547: keep only collections whose `index` array is
non-empty, extracting `{keys: index.native.keys,
options: index.native.options}` for each entry. -/
def buildCollectionsWithIndex (colls : List CollectionOption) : List CollectionWithIndex :=
  colls.filterMap fun c =>
    if c.index.isEmpty then none
    else some ⟨c.name, c.index.map fun i => i.native⟩

/-- Embedding of `_taskCreateIndex` (lines 561-587): result of one
index-creation task, paired with whether the driver's `createIndex` was
invoked.  A name absent from the registry fails with
`missingCollection` before any driver call; a handle without a
`createIndex` function fails with `unsupportedOperation` before any
driver call; otherwise the driver call's own settlement decides. -/
def taskCreateIndex (reg : Registry) (collectionName : String) (_index : IndexNative) :
    Option TaskError × Bool :=
  match registryLookup reg collectionName with
  | none => (some (.missingCollection collectionName), false)
  | some handle =>
      if !handle.hasCreateIndex then (some (.unsupportedOperation collectionName), false)
      else
        match handle.createIndexResult with
        | none => (none, true)
        | some e => (some (.createIndexFailed e), true)

/-- Lines 590-597: one task per (collection, index) pair, in order. -/
def runIndexTasks (reg : Registry) (cwis : List CollectionWithIndex) :
    List (Option TaskError × Bool) :=
  cwis.flatMap fun c => c.indexes.map fun i => taskCreateIndex reg c.name i

/-- `async.parallel`'s aggregation (lines 600-609): the first task error,
if any. -/
def firstTaskError (rs : List (Option TaskError × Bool)) : Option TaskError :=
  rs.findSome? (·.1)

/-- Embedding of the `initializeCollectionIndex` step (lines 526-609):
when `collectionsWithIndex` is empty the function returns at line 550
WITHOUT invoking `stepDone`, so the step never terminates
(`noCallback`); otherwise `async.parallel` runs the tasks and `stepDone`
receives the first error or success. -/
def initCollectionIndexStep (reg : Registry) (colls : List CollectionOption) : StepOutcome :=
  let cwis := buildCollectionsWithIndex colls
  if cwis.isEmpty then .noCallback
  else
    match firstTaskError (runIndexTasks reg cwis) with
    | some e => .err e
    | none => .ok

/-! ## Published properties, disconnect (source lines 55-83, 611-648,
684-712) -/

/-- The slice of `this.properties` the published read surface and the
disconnect hook touch.  Handles are opaque ids; driver collection
handles are objects, hence always truthy, so the `|| undefined` of line
79 is the identity on present entries and is absorbed into the plain
lookup. -/
structure ManagerProps where
  mongoDataBase : Option Nat
  mongoClientInstance : Option Nat
  currentConnexionContext : Option Nat
  mongoDbCollections : Option (List (String × Nat))
deriving DecidableEq, Repr

/-- The `nativeInstance` property getter (lines 61-65). -/
def nativeInstance (st : ManagerProps) : Option Nat :=
  st.mongoDataBase

/-- Result of `mongoDataBase.close()` in `_handleDisconnection`. -/
inductive CloseOutcome where
  | ok
  | failed (e : Nat)
deriving DecidableEq, Repr

/-- Embedding of `_handleDisconnection` (lines 684-712): on close
success, free the current connection context when present and clear
`currentConnexionContext`, `mongoDataBase` and `mongoClientInstance`
(the resolved registry `mongoDbCollections` is not touched); on close
failure, reject with the close error and leave every property
unchanged.  Returns (rejection error if any, final properties, whether
`freeContext` was invoked). -/
def _handleDisconnection (st : ManagerProps) (close : CloseOutcome) :
    Option Nat × ManagerProps × Bool :=
  match close with
  | .failed e => (some e, st, false)
  | .ok =>
      (none,
       { st with currentConnexionContext := none, mongoDataBase := none,
                 mongoClientInstance := none },
       st.currentConnexionContext.isSome)

/-! ## Helper lemmas -/

/-- A successful dereference implies the reference is within the heap. -/
theorem heapGet_lt_length {h : Heap} {i : Nat} {v : List CollectionOption}
    (hg : heapGet h i = some v) : i < h.length := by
  induction h generalizing i with
  | nil => simp [heapGet] at hg
  | cons c cs ih =>
      cases i with
      | zero => simp
      | succ n =>
          have hn : heapGet cs n = some v := hg
          have := ih hn
          simp
          omega

/-- Dereferencing the freshly allocated cell yields the stored value. -/
theorem heapGet_append_self (h : Heap) (v : List CollectionOption) :
    heapGet (h ++ [v]) h.length = some v := by
  induction h with
  | nil => rfl
  | cons c cs ih => exact ih

/-- Allocation does not disturb existing cells. -/
theorem heapGet_append_of_lt {h : Heap} {i : Nat} (hi : i < h.length) (l : Heap) :
    heapGet (h ++ l) i = heapGet h i := by
  induction h generalizing i with
  | nil => simp at hi
  | cons c cs ih =>
      cases i with
      | zero => rfl
      | succ n =>
          have hn : n < cs.length := by simp at hi; omega
          exact ih hn

/-- Mutating one cell does not disturb a different cell. -/
theorem heapGet_heapSet_ne {h : Heap} {i j : Nat} (hij : i ≠ j) (v : List CollectionOption) :
    heapGet (heapSet h i v) j = heapGet h j := by
  induction h generalizing i j with
  | nil => rfl
  | cons c cs ih =>
      cases i with
      | zero =>
          cases j with
          | zero => exact absurd rfl hij
          | succ m => rfl
      | succ n =>
          cases j with
          | zero => rfl
          | succ m =>
              have hnm : n ≠ m := fun he => hij (congrArg Nat.succ he)
              exact ih hnm

/-- A validated options object with a supplied timeout has the timeout
at least 1000. -/
theorem validateOptions_timeout_ge {cs : String} {tmo : Option Nat}
    {colls : List CollectionOption} {t : Nat}
    (hok : validateOptions cs tmo colls = .ok ()) (ht : tmo = some t) : 1000 ≤ t := by
  subst ht
  by_cases h1000 : 1000 ≤ t
  · exact h1000
  · simp [validateOptions, validateTimeout, h1000] at hok

/-- A state with the timer disarmed and the timed-out flag set absorbs
every further event (the guards of all three handlers reject it). -/
theorem foldAttempt_absorbed (ms : Nat) (st : AttemptState) (evs : List AttemptEvent)
    (harm : st.timerArmed = false) (hto : st.timedOut = true) :
    evs.foldl (stepAttemptEvent ms) st = st := by
  induction evs with
  | nil => rfl
  | cons ev rest ih =>
      have hstep : stepAttemptEvent ms st ev = st := by
        cases ev <;> simp [stepAttemptEvent, harm, hto]
      rw [List.foldl_cons, hstep]
      exact ih

/-- With the timer disarmed, a sequence containing no driver settlement
leaves the state unchanged (spurious timer events are rejected by the
`connectionTimeoutId` guard). -/
theorem foldAttempt_no_driver (ms : Nat) (st : AttemptState) (evs : List AttemptEvent)
    (harm : st.timerArmed = false)
    (hnd : ∀ e ∈ evs, isDriverEvent e = false) :
    evs.foldl (stepAttemptEvent ms) st = st := by
  induction evs with
  | nil => rfl
  | cons ev rest ih =>
      have hstep : stepAttemptEvent ms st ev = st := by
        cases ev
        · exact absurd (hnd .success (List.mem_cons_self _ _)) (by simp [isDriverEvent])
        · exact absurd (hnd .error (List.mem_cons_self _ _)) (by simp [isDriverEvent])
        · simp [stepAttemptEvent, harm]
      rw [List.foldl_cons, hstep]
      exact ih fun e he => hnd e (List.mem_cons_of_mem _ he)

/-! ## Claim theorems -/

/-- Claim C1 (code bug, evaluation at the failing input): a context that
registers its three listeners on a fresh handle and is then released
leaves its terminal-error listener behind — `_freePreviousContext`
removes a `'close'` registration, but the handler was registered on
`'error'`, so the release removes only the `'connect'` and
`'reconnect'` registrations and the prior context's error listener
remains subscribed, contradicting the claim that no listener registered
by a prior context survives release. -/
theorem context_release_leaves_error_listener :
    freeContext (registerContextListeners [] 0 1) 0 1 = [(MongoEvent.errorEv, 0)] := by
  decide

/-- Claim C2 (code bug, evaluation at the failing input): with zero
configured collections there are zero index jobs, and
`initializeCollectionIndex` returns at line 550 without ever invoking
`stepDone`; the step's outcome is `noCallback` rather than `ok`, so the
`async.waterfall` stalls and the connect pipeline never succeeds (nor
fails) — the claim says the index step completes immediately as a
success and connect succeeds. -/
theorem zero_index_jobs_never_completes (reg : Registry) :
    initCollectionIndexStep reg [] = .noCallback ∧
    connectStepsOutcome .ok .ok (initCollectionIndexStep reg []) .ok = .noCallback :=
  ⟨rfl, rfl⟩

/-- Claim C10, counterexample: the default post-connection hook tests
`if (error)` (truthiness), not nil-ness, so the falsy non-nil value
`false` makes the hook resolve even though the claim requires every
non-nil error value to be rejected with identically. -/
theorem default_post_connection_falsy_counterexample :
    _handlePostConnection 0 (.boolV false) = .ok () ∧
    isNilJs (.boolV false) = false :=
  ⟨rfl, rfl⟩

/-- Claim C10 as amended: the default post-connection hook, for every
context argument, resolves exactly when its error argument is falsy,
and rejects with the identical error value it was given when the
argument is truthy — it never wraps or substitutes a truthy error. -/
theorem default_post_connection_contract (context : Nat) (error : JsVal) :
    (truthyJs error = false → _handlePostConnection context error = .ok ()) ∧
    (truthyJs error = true → _handlePostConnection context error = .error error) := by
  unfold _handlePostConnection
  constructor <;> intro hb <;> simp [hb]

/-- Claim C10, witness: a truthy `Error` instance is rejected unchanged. -/
theorem default_post_connection_contract_witness :
    truthyJs (.errObj 7) = true ∧
    _handlePostConnection 0 (.errObj 7) = .error (.errObj 7) :=
  ⟨by decide, (default_post_connection_contract 0 (.errObj 7)).2 (by decide)⟩

/-- Claim C6: a live driver event delivered while the state machine is
`Disconnecting` is ignored (no hook runs); in any other state the routed
hook (`onConnectionLost` for a terminal error, `onReconnected` for
connect/reconnect) runs exactly once for the event, and whatever the
hook's own result, no error propagates out of the event handler. -/
theorem live_event_dispatch_contract (st : LifecycleState) (ev : LiveEvent) (hr : HookResult) :
    (st = .Disconnecting → dispatchLiveEvent st ev hr = ([], none)) ∧
    (st ≠ .Disconnecting → dispatchLiveEvent st ev hr = ([liveEventHook ev], none)) := by
  unfold dispatchLiveEvent
  constructor <;> intro hst <;> simp [hst]

/-- Claim C6, witness: a terminal error in state `Connected` with a
failing hook invokes `onConnectionLost` once and propagates nothing. -/
theorem live_event_dispatch_contract_witness :
    LifecycleState.Connected ≠ LifecycleState.Disconnecting ∧
    dispatchLiveEvent .Connected .errorEv (.failed 3) = ([HookCall.onConnectionLost], none) :=
  ⟨by decide, (live_event_dispatch_contract .Connected .errorEv (.failed 3)).2 (by decide)⟩

/-- Claim C4, counterexample: a hook that rejects its promise with a
non-`Error` value makes the attempt fail with that raw value — the
rejection path (source lines 408-424) performs no `instanceof Error`
wrapping, while the claim requires every non-`Error` reported value to
be wrapped as a generic error. -/
theorem post_connection_reject_unwrapped_counterexample :
    postConnectionResolution (.rejected (.nonError 0)) .closeOk =
      [.closeCall, .stepDoneErr (.hookValue (.nonError 0))] ∧
    isInstanceOfError (.nonError 0) = false := by
  decide

/-- Claim C4 as amended: for every error value the post-connection hook
reports after a successful raw connect, the just-opened connection is
closed before the attempt resolves; when that close succeeds the
attempt fails with the hook's error, wrapped as the generic
`Post connection failed` error only when the value was reported by
fulfilling the hook's promise with a non-`Error` value (a rejection
value is propagated unchanged); when the close itself fails, the close
error is surfaced in place of the hook's error. -/
theorem post_connection_failure_contract (report : HookReport) (closeRes : CloseResult)
    (v : HookValue) (hv : reportedValue report = some v) :
    (closeRes = .closeOk →
      postConnectionResolution report closeRes =
        [.closeCall, .stepDoneErr
          (match report with
           | .fulfilled _ => wrapUserError v
           | .rejected _ => .hookValue v)]) ∧
    (∀ e, closeRes = .closeErr e →
      postConnectionResolution report closeRes =
        [.closeCall, .stepDoneErr (.closeFailed e)]) := by
  cases report with
  | fulfilled w =>
      cases w with
      | none => simp [reportedValue] at hv
      | some u =>
          have hu : u = v := by simpa [reportedValue] using hv
          subst hu
          constructor
          · intro hc; subst hc; rfl
          · intro e hc; subst hc; rfl
  | rejected u =>
      have hu : u = v := by simpa [reportedValue] using hv
      subst hu
      constructor
      · intro hc; subst hc; rfl
      · intro e hc; subst hc; rfl

/-- Claim C4, witness: a hook rejecting with a proper `Error` makes the
continuation close the connection and then fail the attempt with that
same error. -/
theorem post_connection_failure_contract_witness :
    reportedValue (.rejected (.jsError 5)) = some (.jsError 5) ∧
    postConnectionResolution (.rejected (.jsError 5)) .closeOk =
      [.closeCall, .stepDoneErr (.hookValue (.jsError 5))] :=
  ⟨rfl, (post_connection_failure_contract (.rejected (.jsError 5)) .closeOk (.jsError 5) rfl).1 rfl⟩

/-- Claim C3: under the driver guarantee that the connect promise
settles at most once, a connect attempt delivered any non-empty event
sequence resolves exactly once, with the first event's outcome: the
deadline timer ends up disarmed, a timeout first produces the
`TimedOut` error carrying the configured timeout value, and any driver
success or error arriving after the timeout (and any spurious timer
event after a driver settlement) is ignored and does not change the
attempt's outcome. -/
theorem connect_attempt_resolves_once (ms : Nat) (ev : AttemptEvent)
    (rest : List AttemptEvent)
    (hdrv : ((ev :: rest).filter isDriverEvent).length ≤ 1) :
    (runAttempt ms (ev :: rest)).outcomes = [attemptOutcomeOf ms ev] ∧
    (runAttempt ms (ev :: rest)).timerArmed = false := by
  have hrun : runAttempt ms (ev :: rest) =
      rest.foldl (stepAttemptEvent ms) (stepAttemptEvent ms initAttempt ev) := rfl
  cases ev with
  | timeout =>
      have hstep : stepAttemptEvent ms initAttempt .timeout =
          { timerArmed := false, timedOut := true, outcomes := [.timedOutErr ms] } := rfl
      rw [hrun, hstep, foldAttempt_absorbed ms _ rest rfl rfl]
      exact ⟨rfl, rfl⟩
  | success =>
      have hnd : ∀ e ∈ rest, isDriverEvent e = false := by
        intro e he
        by_contra hcon
        have he' : isDriverEvent e = true := by
          cases hb : isDriverEvent e
          · exact absurd hb hcon
          · rfl
        have : 2 ≤ ((AttemptEvent.success :: rest).filter isDriverEvent).length := by
          have hmem : e ∈ rest.filter isDriverEvent := List.mem_filter.mpr ⟨he, he'⟩
          have hpos : 0 < (rest.filter isDriverEvent).length :=
            List.length_pos.mpr (fun hnil => by simp [hnil] at hmem)
          simp [List.filter, isDriverEvent]
          omega
        omega
      have hstep : stepAttemptEvent ms initAttempt .success =
          { timerArmed := false, timedOut := false, outcomes := [.connected] } := rfl
      rw [hrun, hstep, foldAttempt_no_driver ms _ rest rfl hnd]
      exact ⟨rfl, rfl⟩
  | error =>
      have hnd : ∀ e ∈ rest, isDriverEvent e = false := by
        intro e he
        by_contra hcon
        have he' : isDriverEvent e = true := by
          cases hb : isDriverEvent e
          · exact absurd hb hcon
          · rfl
        have : 2 ≤ ((AttemptEvent.error :: rest).filter isDriverEvent).length := by
          have hmem : e ∈ rest.filter isDriverEvent := List.mem_filter.mpr ⟨he, he'⟩
          have hpos : 0 < (rest.filter isDriverEvent).length :=
            List.length_pos.mpr (fun hnil => by simp [hnil] at hmem)
          simp [List.filter, isDriverEvent]
          omega
        omega
      have hstep : stepAttemptEvent ms initAttempt .error =
          { timerArmed := false, timedOut := false, outcomes := [.connectError] } := rfl
      rw [hrun, hstep, foldAttempt_no_driver ms _ rest rfl hnd]
      exact ⟨rfl, rfl⟩

/-- Claim C3, witness: with a 2000 ms deadline, a timeout followed by a
late driver success resolves the attempt once, with the `TimedOut`
error carrying 2000, and the late success is ignored. -/
theorem connect_attempt_resolves_once_witness :
    ((AttemptEvent.timeout :: [AttemptEvent.success]).filter isDriverEvent).length ≤ 1 ∧
    (runAttempt 2000 (AttemptEvent.timeout :: [AttemptEvent.success])).outcomes =
      [AttemptOutcome.timedOutErr 2000] ∧
    (runAttempt 2000 (AttemptEvent.timeout :: [AttemptEvent.success])).timerArmed = false :=
  ⟨by decide,
   (connect_attempt_resolves_once 2000 .timeout [.success] (by decide)).1,
   (connect_attempt_resolves_once 2000 .timeout [.success] (by decide)).2⟩

/-- Claim C5: an index-build job naming a collection absent from the
resolved registry fails with the `missingCollection` error and never
invokes the driver's `createIndex`; a job whose registry entry has no
`createIndex` function fails with `unsupportedOperation`, likewise
without a driver call; and whenever the job batch is non-empty and its
first error is `e`, the index step — and with it the whole connect
waterfall — fails with exactly `e`. -/
theorem index_job_guard_contract (reg : Registry) (name : String) (idx : IndexNative)
    (colls : List CollectionOption) (e : TaskError)
    (hne : (buildCollectionsWithIndex colls).isEmpty = false)
    (hfirst : firstTaskError (runIndexTasks reg (buildCollectionsWithIndex colls)) = some e) :
    (registryLookup reg name = none →
      taskCreateIndex reg name idx = (some (.missingCollection name), false)) ∧
    (∀ handle, registryLookup reg name = some handle → handle.hasCreateIndex = false →
      taskCreateIndex reg name idx = (some (.unsupportedOperation name), false)) ∧
    connectStepsOutcome .ok .ok (initCollectionIndexStep reg colls) .ok = .err e := by
  refine ⟨?_, ?_, ?_⟩
  · intro habs
    simp [taskCreateIndex, habs]
  · intro handle hh hf
    simp [taskCreateIndex, hh, hf]
  · simp [initCollectionIndexStep, hne, hfirst, connectStepsOutcome, waterfallOutcome]

/-- Claim C5, witness: a single job on collection `a` against an empty
registry fails with `missingCollection a`, no driver call happens, and
the connect pipeline fails with that same error. -/
theorem index_job_guard_contract_witness :
    (buildCollectionsWithIndex
        [{ name := "a", index := [{ native := { keys := [("f", .num 1)], options := none } }] }]).isEmpty
      = false ∧
    firstTaskError (runIndexTasks []
        (buildCollectionsWithIndex
          [{ name := "a", index := [{ native := { keys := [("f", .num 1)], options := none } }] }]))
      = some (.missingCollection "a") ∧
    taskCreateIndex [] "a" { keys := [("f", .num 1)], options := none } =
      (some (.missingCollection "a"), false) ∧
    connectStepsOutcome .ok .ok
        (initCollectionIndexStep []
          [{ name := "a", index := [{ native := { keys := [("f", .num 1)], options := none } }] }])
        .ok
      = .err (.missingCollection "a") :=
  ⟨rfl, rfl,
   (index_job_guard_contract [] "a" { keys := [("f", .num 1)], options := none }
      [{ name := "a", index := [{ native := { keys := [("f", .num 1)], options := none } }] }]
      (.missingCollection "a") rfl rfl).1 rfl,
   (index_job_guard_contract [] "a" { keys := [("f", .num 1)], options := none }
      [{ name := "a", index := [{ native := { keys := [("f", .num 1)], options := none } }] }]
      (.missingCollection "a") rfl rfl).2.2⟩

/-- Claim C8: disconnecting with an active connection and an active
context either (close succeeds) releases the connection context and
clears `currentConnexionContext`, `mongoDataBase` (so `nativeInstance`
reads `undefined`) and `mongoClientInstance` while leaving the resolved
registry untouched, or (close fails) surfaces the close error to the
caller with the context unreleased and every property unchanged. -/
theorem handleDisconnection_contract (st : ManagerProps) (close : CloseOutcome)
    (db ctx : Nat) (_hdb : st.mongoDataBase = some db)
    (hctx : st.currentConnexionContext = some ctx) :
    (close = .ok →
      _handleDisconnection st close =
        (none,
         { st with currentConnexionContext := none, mongoDataBase := none,
                   mongoClientInstance := none },
         true) ∧
      nativeInstance ({ st with currentConnexionContext := none, mongoDataBase := none,
                                mongoClientInstance := none }) = none) ∧
    (∀ e, close = .failed e → _handleDisconnection st close = (some e, st, false)) := by
  constructor
  · intro hc
    subst hc
    constructor
    · simp [_handleDisconnection, hctx]
    · rfl
  · intro e hc
    subst hc
    rfl

/-- Claim C8, witness: with an active connection and context, a
successful close clears the native instance and releases the context,
and a failing close surfaces the error and changes nothing. -/
theorem handleDisconnection_contract_witness :
    (ManagerProps.mk (some 1) (some 2) (some 3) (some [("a", 4)])).mongoDataBase = some 1 ∧
    (ManagerProps.mk (some 1) (some 2) (some 3) (some [("a", 4)])).currentConnexionContext
      = some 3 ∧
    _handleDisconnection (ManagerProps.mk (some 1) (some 2) (some 3) (some [("a", 4)])) .ok =
      (none, ManagerProps.mk none none none (some [("a", 4)]), true) ∧
    _handleDisconnection (ManagerProps.mk (some 1) (some 2) (some 3) (some [("a", 4)]))
        (.failed 9) =
      (some 9, ManagerProps.mk (some 1) (some 2) (some 3) (some [("a", 4)]), false) :=
  ⟨rfl, rfl,
   ((handleDisconnection_contract (ManagerProps.mk (some 1) (some 2) (some 3) (some [("a", 4)]))
      .ok 1 3 rfl rfl).1 rfl).1,
   (handleDisconnection_contract (ManagerProps.mk (some 1) (some 2) (some 3) (some [("a", 4)]))
      (.failed 9) 1 3 rfl rfl).2 9 rfl⟩

/-- Claim C7: when the options violate the schema (blank connection
string, a collection with a blank name, invalid index keys, or a
supplied `connectionTimeoutMs` below 1000) the initialize hook rejects
with the `InvalidArgument` message built from the validation message and
leaves the stored state and the heap unchanged; on valid options it
succeeds and stores a deep copy of the collections — a fresh reference
whose value equals the input's, so a later in-place mutation of the
caller's array never affects the stored copy — and adopts a supplied
`connectionTimeoutMs` as the active timeout, keeping the previous value
when none is supplied. -/
theorem handleInit_options_contract (st : ManagerInitState) (h : Heap) (cs : String)
    (tmo : Option Nat) (collsRef : Nat) (colls : List CollectionOption)
    (href : heapGet h collsRef = some colls) :
    (∀ msg, validateOptions cs tmo colls = .error msg →
      _handleInitialization st h cs tmo collsRef =
        (some ("Invalid options: " ++ msg), st, h)) ∧
    (validateOptions cs tmo colls = .ok () →
      ∃ r st2 h2, _handleInitialization st h cs tmo collsRef = (none, st2, h2) ∧
        st2.mongoDbOptions = some ⟨cs, r⟩ ∧
        r ≠ collsRef ∧
        heapGet h2 r = some colls ∧
        heapGet h2 collsRef = some colls ∧
        (∀ w, heapGet (heapSet h2 collsRef w) r = some colls) ∧
        (∀ t, tmo = some t → st2.connectionTimeoutMs = t) ∧
        (tmo = none → st2.connectionTimeoutMs = st.connectionTimeoutMs)) := by
  have hlt : collsRef < h.length := heapGet_lt_length href
  constructor
  · intro msg hmsg
    simp [_handleInitialization, href, hmsg]
  · intro hok
    cases tmo with
    | none =>
        refine ⟨h.length,
          { mongoDbOptions := some ⟨cs, h.length⟩,
            connectionTimeoutMs := st.connectionTimeoutMs },
          h ++ [colls], ?_, rfl, ?_, ?_, ?_, ?_, ?_, ?_⟩
        · simp [_handleInitialization, href, hok, heapAlloc]
        · omega
        · exact heapGet_append_self h colls
        · rw [heapGet_append_of_lt hlt [colls]]
          exact href
        · intro w
          rw [heapGet_heapSet_ne (by omega : collsRef ≠ h.length) w]
          exact heapGet_append_self h colls
        · intro t ht
          exact absurd ht (by simp)
        · intro _
          rfl
    | some t =>
        have h1000 : 1000 ≤ t := validateOptions_timeout_ge hok rfl
        have ht0 : ¬t = 0 := by omega
        refine ⟨h.length,
          { mongoDbOptions := some ⟨cs, h.length⟩,
            connectionTimeoutMs := t },
          h ++ [colls], ?_, rfl, ?_, ?_, ?_, ?_, ?_, ?_⟩
        · simp [_handleInitialization, href, hok, heapAlloc, ht0]
        · omega
        · exact heapGet_append_self h colls
        · rw [heapGet_append_of_lt hlt [colls]]
          exact href
        · intro w
          rw [heapGet_heapSet_ne (by omega : collsRef ≠ h.length) w]
          exact heapGet_append_self h colls
        · intro u hu
          cases hu
          rfl
        · intro hu
          exact absurd hu (by simp)

/-- Claim C7, witness: valid options with collection `a` (empty index
list) and no supplied timeout succeed, storing the connection string
and a copy of the collections at a fresh reference that a later caller
mutation does not reach, and keeping the configured 2000 ms timeout. -/
theorem handleInit_options_contract_witness :
    heapGet [[CollectionOption.mk "a" []]] 0 = some [CollectionOption.mk "a" []] ∧
    validateOptions "cs" none [CollectionOption.mk "a" []] = .ok () ∧
    (∃ r st2 h2,
      _handleInitialization (ManagerInitState.mk none 2000) [[CollectionOption.mk "a" []]]
          "cs" none 0 = (none, st2, h2) ∧
      st2.mongoDbOptions = some ⟨"cs", r⟩ ∧
      r ≠ 0 ∧
      heapGet h2 r = some [CollectionOption.mk "a" []] ∧
      heapGet h2 0 = some [CollectionOption.mk "a" []] ∧
      (∀ w, heapGet (heapSet h2 0 w) r = some [CollectionOption.mk "a" []]) ∧
      (∀ t, (none : Option Nat) = some t → st2.connectionTimeoutMs = t) ∧
      ((none : Option Nat) = none → st2.connectionTimeoutMs = 2000)) :=
  ⟨rfl, rfl,
   (handleInit_options_contract (ManagerInitState.mk none 2000) [[CollectionOption.mk "a" []]]
      "cs" none 0 [CollectionOption.mk "a" []] rfl).2 rfl⟩

end MongoManager
